import Mathlib

/-!
# Verification of the larkbot-demo MCP protocol core

Shallow embedding of the JSON-RPC dispatcher, tool registry, SSE transport
and stdio transport of `src/mcp/server.ts` and `src/mcp/tavily.ts`.

Modelling conventions:
* JavaScript runtime values are modelled by `JsVal`; numbers are modelled as
  integers plus an explicit `NaN` (`JsNum`).  Fractional floating-point
  values do not occur in any code path a claim depends on.
* A thrown JavaScript `Error` is modelled by `JsError` (an `Except` error);
  its platform-generated stack trace string is modelled as absent (`none`),
  since no code path inspects its contents.
* Property access is modelled as own-key association-list lookup, except
  where a prototype-inherited key is observable: the tool registries are
  plain object literals inheriting `Object.prototype`, so their `callTool`
  membership guards (`tools[name]`, `name in TOOLS`) also find the keys in
  `objectProtoKeys`.  The fields read off parsed-JSON values ("name",
  "input", "query", "max_results", "depth") collide with no
  `Object.prototype` key, so own-key lookup is exact there.
* `undefined` is the `JsVal.undefined` value: it never occurs in parsed JSON but
  arises from accessing a missing property.
-/

/-- A JavaScript number: either NaN or an integer value. -/
inductive JsNum where
  | nan : JsNum
  | int (n : Int) : JsNum
deriving DecidableEq, Repr

/-- JavaScript numeric addition (`NaN` is absorbing). -/
def JsNum.add : JsNum → JsNum → JsNum
  | .int a, .int b => .int (a + b)
  | _, _ => .nan

/-- `Math.min` on two JavaScript numbers (`NaN` if either is `NaN`). -/
def JsNum.min2 : JsNum → JsNum → JsNum
  | .int a, .int b => .int (min a b)
  | _, _ => .nan

/-- A JavaScript runtime value (the image of JSON plus `undefined`). -/
inductive JsVal where
  | undefined : JsVal
  | null : JsVal
  | bool (b : Bool) : JsVal
  | num (n : JsNum) : JsVal
  | str (s : String) : JsVal
  | arr (xs : List JsVal) : JsVal
  | obj (fields : List (String × JsVal)) : JsVal

/-- JavaScript truthiness: `undefined`, `null`, `false`, `0`, `NaN` and `""`
are falsy; everything else (including `[]` and `{}`) is truthy. -/
def jsTruthy : JsVal → Bool
  | .undefined => false
  | .null => false
  | .bool b => b
  | .num .nan => false
  | .num (.int n) => n ≠ 0
  | .str s => s ≠ ""
  | .arr _ => true
  | .obj _ => true

/-- The JavaScript `a || b` operator: `a` if truthy, else `b`. -/
def jsOr (a b : JsVal) : JsVal :=
  if jsTruthy a then a else b

mutual

/-- The JavaScript `String(v)` coercion (also used by template literals and
by property-key coercion).  Plain objects render as "[object Object]";
arrays join the renderings of their elements with commas. -/
def jsToString : JsVal → String
  | .undefined => "undefined"
  | .null => "null"
  | .bool true => "true"
  | .bool false => "false"
  | .num .nan => "NaN"
  | .num (.int n) => toString n
  | .str s => s
  | .arr xs => String.intercalate "," (jsArrParts xs)
  | .obj _ => "[object Object]"

/-- Renderings of array elements for `Array.prototype.join`, which renders
`null` and `undefined` elements as the empty string. -/
def jsArrParts : List JsVal → List String
  | [] => []
  | .undefined :: vs => "" :: jsArrParts vs
  | .null :: vs => "" :: jsArrParts vs
  | v :: vs => jsToString v :: jsArrParts vs

end

/-- `String.prototype.trim`: strip leading and trailing whitespace. -/
def jsTrim (s : String) : String :=
  ⟨((s.data.dropWhile Char.isWhitespace).reverse.dropWhile Char.isWhitespace).reverse⟩

/-- String-to-number coercion: an empty (trimmed) string is `0`, an integer
literal is its value, anything else is `NaN` (non-integral numeric literals
are modelled as `NaN`; they occur in no code path a claim depends on). -/
def strToNum (s : String) : JsNum :=
  let t := jsTrim s
  if t = "" then .int 0
  else match t.toInt? with
    | some n => .int n
    | none => .nan

/-- The JavaScript `Number(v)` coercion.  Arrays coerce through their string
rendering (`Number(a) = Number(String(a))`); plain objects give `NaN`. -/
def jsToNumber : JsVal → JsNum
  | .undefined => .nan
  | .null => .int 0
  | .bool true => .int 1
  | .bool false => .int 0
  | .num n => n
  | .str s => strToNum s
  | .arr xs => strToNum (jsToString (.arr xs))
  | .obj _ => .nan

/-- Property access `v[k]`: own-key lookup on objects, `undefined` on
everything else.  (At every use site the receiver is guarded by `|| {}`,
so the throwing cases `null`/`undefined` cannot occur.) -/
def getField : JsVal → String → JsVal
  | .obj fields, k =>
    match fields.find? (fun p => p.1 == k) with
    | some p => p.2
    | none => .undefined
  | _, _ => .undefined

/-- `xs.slice(0, n)` for a JavaScript number `n`: `NaN` coerces to `0`
(empty result); a negative `n` counts from the end. -/
def listSlice0 {α : Type} (xs : List α) : JsNum → List α
  | .nan => []
  | .int n =>
    if 0 ≤ n then xs.take n.toNat
    else xs.take (xs.length - (-n).toNat)

/-- The own property names of `Object.prototype` (ECMA-262 section 20.1.3,
plus the `__proto__` accessor and the four annex-B methods).  A plain object
literal inherits these, so a property read `o[k]` and the `in` operator find
them even when `k` is not an own key of the record. -/
def objectProtoKeys : List String :=
  ["constructor", "hasOwnProperty", "isPrototypeOf", "propertyIsEnumerable",
   "toLocaleString", "toString", "valueOf", "__proto__",
   "__defineGetter__", "__defineSetter__", "__lookupGetter__", "__lookupSetter__"]

/-! ## JSON-RPC data model (server.ts lines 21-40, tavily.ts lines 36-38) -/

/-- A JSON-RPC id: a string or a number.  Absence and `null` are collapsed
to `none` (the dispatchers map both to `null` via `req.id ?? null`, and the
TypeScript type admits exactly `string | number | null` or absence). -/
inductive RpcId where
  | str (s : String)
  | num (n : Int)
deriving DecidableEq, Repr

/-- A JSON-RPC request as received by the dispatchers.  `jsonrpc` and
`method` are arbitrary strings (requests come from parsed JSON, so the
version tag need not be "2.0"; a non-string tag compares unequal to "2.0"
just like a string one).  Absent `params` is modelled by `JsVal.undefined`
(every use guards with `params || {}`, treating `undefined` like `null`). -/
structure JsonRpcRequest where
  jsonrpc : String
  id : Option RpcId
  method : String
  params : JsVal

/-- The error member of a JSON-RPC error response. -/
structure RpcErr where
  code : Int
  message : String
  data : Option JsVal

/-- A JSON-RPC response: `JsonRpcSuccess` or `JsonRpcError`
(exactly one of `result` / `error`). -/
inductive JsonRpcResponse where
  | success (id : Option RpcId) (result : JsVal)
  | failure (id : Option RpcId) (error : RpcErr)

/-- The `id` field of a response (`none` is the JSON `null`). -/
def JsonRpcResponse.respId : JsonRpcResponse → Option RpcId
  | .success i _ => i
  | .failure i _ => i

/-- A thrown JavaScript `Error`: its `message` and `stack`.  Stack traces
are platform-generated strings that no code in the repository inspects;
the explicit `throw new Error(...)` sites are modelled with `stack = none`. -/
structure JsError where
  message : String
  stack : Option String

/-! ## Tool registry of server.ts (lines 69-102) -/

/-- Environment for the SSE server's tools: the current time rendered by
`new Date().toISOString()` (consumed by the `now` tool). -/
structure ServerEnv where
  nowISO : String

/-- `echo.run` (server.ts lines 80-82). -/
def echoRun (input : JsVal) : Except JsError JsVal :=
  .ok (.obj [("echo", input)])

/-- `now.run` (server.ts lines 87-89). -/
def nowRun (env : ServerEnv) : Except JsError JsVal :=
  .ok (.obj [("now", .str env.nowISO)])

/-- `sum.run` (server.ts lines 94-100): rejects non-arrays, otherwise folds
`acc + Number(v || 0)` from 0 over the elements. -/
def sumRun (input : JsVal) : Except JsError JsVal :=
  match input with
  | .arr xs =>
    .ok (.obj [("total", .num
      (xs.foldl (fun acc v => acc.add (jsToNumber (jsOr v (.num (.int 0))))) (.int 0)))])
  | _ => .error ⟨"Input must be array of numbers", none⟩

/-- A tool of server.ts's `tools` record (interface `McpTool`; the server's
tools declare no `inputSchema`). -/
structure ServerTool where
  name : String
  description : String
  run : ServerEnv → JsVal → Except JsError JsVal

/-- The `tools` record of server.ts (lines 76-102), as an association list
in key-insertion order (JavaScript objects iterate string keys in
insertion order). -/
def serverTools : List (String × ServerTool) :=
  [("echo", ⟨"echo", "Return the provided input. / 回显输入内容",
      fun _ input => echoRun input⟩),
   ("now", ⟨"now", "Return current ISO timestamp. / 返回当前时间戳",
      fun env _ => nowRun env⟩),
   ("sum", ⟨"sum", "Sum numbers in an array. / 对数组中的数字求和",
      fun _ input => sumRun input⟩)]

/-- Own-key lookup in a tool record (`tools[k]`). -/
def toolLookup {α : Type} (reg : List (String × α)) (k : String) : Option α :=
  (reg.find? (fun p => p.1 == k)).map (fun p => p.2)

/-! ## The dispatcher of server.ts (`handleRpc`, lines 107-148) -/

/-- The body of the `try` block in server.ts's `handleRpc` (lines 116-140);
a thrown error is the `Except.error` case, caught by `handleRpcServer`.
In `callTool`, `tools[name]` coerces the (possibly non-string) `name` to a
property key via `String(name)`, and the guard is
`if (!name || !tools[name]) throw new Error("Tool not found: " + name)`.
A key that is not an own key but is inherited from `Object.prototype`
(e.g. "toString") makes `tools[name]` a truthy non-tool, so the guard
passes and `tools[name].run(input)` throws a TypeError — rendered by V8 as
"tools[name].run is not a function" — which the catch turns into -32000. -/
def tryServer (env : ServerEnv) (req : JsonRpcRequest) : Except JsError JsonRpcResponse :=
  match req.method with
  | "ping" => .ok (.success req.id (.obj [("pong", .bool true)]))
  | "listTools" =>
    .ok (.success req.id (.arr (serverTools.map fun p =>
      .obj [("name", .str p.2.name), ("description", .str p.2.description)])))
  | "callTool" =>
    let params := jsOr req.params (.obj [])
    let name := getField params "name"
    let input := getField params "input"
    match jsTruthy name, toolLookup serverTools (jsToString name) with
    | true, some t =>
      match t.run env input with
      | .ok result => .ok (.success req.id result)
      | .error e => .error e
    | true, none =>
      if objectProtoKeys.contains (jsToString name) then
        .error ⟨"tools[name].run is not a function", none⟩
      else
        .error ⟨"Tool not found: " ++ jsToString name, none⟩
    | false, _ => .error ⟨"Tool not found: " ++ jsToString name, none⟩
  | m => .ok (.failure req.id ⟨-32601, "Method not found: " ++ m, none⟩)

/-- server.ts `handleRpc` (lines 107-148): version check, then the `try`
body, converting any thrown error to a code -32000 failure with message
`err?.message || "Internal error"` and `data = err?.stack`. -/
def handleRpcServer (env : ServerEnv) (req : JsonRpcRequest) : JsonRpcResponse :=
  if req.jsonrpc ≠ "2.0" then
    .failure req.id ⟨-32600, "Invalid JSON-RPC version", none⟩
  else
    match tryServer env req with
    | .ok resp => resp
    | .error e =>
      .failure req.id
        ⟨-32000, if e.message = "" then "Internal error" else e.message, e.stack.map .str⟩

/-! ## tavily.ts: configuration, tool, dispatcher (lines 11-121) -/

/-- One item of the external search API's response body. -/
structure TavilyItem where
  title : String
  url : String
  content : String

/-- The external search API's response body (`TavilySearchResponse`). -/
structure TavilySearchResponse where
  query : String
  results : List TavilyItem

/-- The request body built for the external API (`TavilySearchRequest`);
`query` is whatever value `input.query` held. -/
structure TavilyBody where
  apiKey : String
  query : JsVal
  maxResults : JsNum
  searchDepth : String

/-- Outcome of the outbound `fetch` (an external collaborator): the promise
rejects (network failure; rejections while reading the body are folded in),
or an HTTP response with `ok` false, or an `ok` response with parsed JSON. -/
inductive FetchOutcome where
  | reject (e : JsError)
  | notOk (status : Int) (text : String)
  | okJson (data : TavilySearchResponse)

/-- Modelled from the spec: the configuration module `../config` imported by
tavily.ts is not among the sources.  Per the spec's configuration surface it
supplies an optional API credential (`apiKey`; a missing or empty credential
is falsy, modelled as `none`) and a max-results bound.  The environment also
carries the outcome of the outbound `fetch`, keyed by the request body. -/
structure TavilyEnv where
  apiKey : Option String
  maxResults : JsNum
  fetch : TavilyBody → FetchOutcome

/-- `tavily_search.run` (tavily.ts lines 58-90): fail when the credential is
missing; build the request body (`max_results` clamped by
`Math.min(input.max_results || config.tavily.maxResults, 10)`, depth
`"advanced"` only on strict equality); fetch; fail on rejection or non-ok
status; otherwise trim the results to `max_results` entries of title, url
and the first 500 characters of content. -/
def tavilySearchRun (env : TavilyEnv) (input : JsVal) : Except JsError JsVal :=
  match env.apiKey with
  | none => .error ⟨"Tavily API key missing. 请在环境变量中设置 TAVILY_API_KEY", none⟩
  | some key =>
    let mr := JsNum.min2
      (jsToNumber (jsOr (getField input "max_results") (.num env.maxResults))) (.int 10)
    let depth := match getField input "depth" with
      | .str "advanced" => "advanced"
      | _ => "basic"
    let body : TavilyBody := ⟨key, getField input "query", mr, depth⟩
    match env.fetch body with
    | .reject e => .error e
    | .notOk status text =>
      .error ⟨"Tavily API error: " ++ toString status ++ " " ++ text, none⟩
    | .okJson data =>
      .ok (.obj [("query", .str data.query),
        ("results", .arr ((listSlice0 data.results mr).map fun r =>
          .obj [("title", .str r.title), ("url", .str r.url),
                ("content", .str (r.content.take 500))]))])

/-- A tool of tavily.ts's `TOOLS` record (these do declare an `inputSchema`). -/
structure TavilyTool where
  name : String
  description : String
  inputSchema : JsVal
  run : TavilyEnv → JsVal → Except JsError JsVal

/-- The `inputSchema` literal of `tavily_search` (tavily.ts lines 49-57). -/
def tavilySearchSchema : JsVal :=
  .obj [("type", .str "object"),
    ("properties", .obj [
      ("query", .obj [("type", .str "string"),
        ("description", .str "Search query / 搜索关键词")]),
      ("max_results", .obj [("type", .str "number"),
        ("description", .str "Max results (1-10)"),
        ("minimum", .num (.int 1)), ("maximum", .num (.int 10))]),
      ("depth", .obj [("type", .str "string"),
        ("enum", .arr [.str "basic", .str "advanced"]),
        ("description", .str "Search depth")])]),
    ("required", .arr [.str "query"])]

/-- The `TOOLS` record of tavily.ts (lines 40-92), in key-insertion order. -/
def tavilyTools : List (String × TavilyTool) :=
  [("tavily_search", ⟨"tavily_search",
    "Perform a web search using Tavily API. 输入自然语言查询，返回最新互联网信息摘要。",
    tavilySearchSchema, tavilySearchRun⟩)]

/-- The body of the `try` block in tavily.ts's `handleRpc` (lines 98-117).
In `callTool` the guard is
`if (typeof name !== "string" || !(name in TOOLS)) throw ...`,
and the tool runs on `input || {}`.  The `in` operator consults the
prototype chain, so a string key inherited from `Object.prototype`
(e.g. "toString") passes the guard; `TOOLS[name]` is then the inherited
non-tool and `tool.run(input || {})` throws a TypeError — rendered by V8 as
"tool.run is not a function" — which the catch turns into -32000. -/
def tryTavily (env : TavilyEnv) (req : JsonRpcRequest) : Except JsError JsonRpcResponse :=
  match req.method with
  | "ping" => .ok (.success req.id (.obj [("pong", .bool true)]))
  | "listTools" =>
    .ok (.success req.id (.arr (tavilyTools.map fun p =>
      .obj [("name", .str p.2.name), ("description", .str p.2.description),
            ("inputSchema", p.2.inputSchema)])))
  | "callTool" =>
    let params := jsOr req.params (.obj [])
    let name := getField params "name"
    let input := getField params "input"
    match name with
    | .str s =>
      match toolLookup tavilyTools s with
      | some t =>
        match t.run env (jsOr input (.obj [])) with
        | .ok result => .ok (.success req.id result)
        | .error e => .error e
      | none =>
        if objectProtoKeys.contains s then
          .error ⟨"tool.run is not a function", none⟩
        else
          .error ⟨"Tool not found: " ++ s, none⟩
    | v => .error ⟨"Tool not found: " ++ jsToString v, none⟩
  | m => .ok (.failure req.id ⟨-32601, "Method not found: " ++ m, none⟩)

/-- tavily.ts `handleRpc` (lines 94-121): version check, then the `try`
body, converting any thrown error to a code -32000 failure. -/
def handleRpcTavily (env : TavilyEnv) (req : JsonRpcRequest) : JsonRpcResponse :=
  if req.jsonrpc ≠ "2.0" then
    .failure req.id ⟨-32600, "Invalid JSON-RPC version", none⟩
  else
    match tryTavily env req with
    | .ok resp => resp
    | .error e =>
      .failure req.id
        ⟨-32000, if e.message = "" then "Internal error" else e.message, e.stack.map .str⟩

/-! ## SSE transport (server.ts lines 45-64, 161-186, 202-205) -/

/-- One SSE frame written to a connection: the three lines
`id: <seq>`, `event: <name>`, `data: <json>` plus a blank line
(server.ts 58-60 and 176-178). -/
structure SseFrame where
  seq : Int
  event : String
  data : JsVal

/-- A registered SSE connection (interface `ClientConn`).  Connection ids
are modelled as serial `Nat` tokens (`randomUUID` yields fresh unique ids);
`lastEventId` is a JavaScript number since `Number(header)` may be `NaN`. -/
structure ClientConn where
  createdAt : Int
  lastEventId : JsNum

/-- The process-wide mutable SSE state: the `clients` map (in insertion
order), the `globalEventSeq` counter, and — for reasoning — the
chronological log `out` of every frame written, tagged with the id of the
connection it was written to. -/
structure SseState where
  clients : List (Nat × ClientConn)
  nextConn : Nat
  seq : Int
  out : List (Nat × SseFrame)

/-- The state at process start: no clients, `globalEventSeq = 1`. -/
def initSse : SseState := ⟨[], 0, 1, []⟩

/-- `broadcast(event, data)` (server.ts 55-64): write a frame carrying the
current `globalEventSeq` to every registered connection, set each
connection's `lastEventId` to it, then increment the sequence once. -/
def sseBroadcast (event : String) (data : JsVal) (s : SseState) : SseState :=
  { clients := s.clients.map fun p => (p.1, { p.2 with lastEventId := .int s.seq }),
    nextConn := s.nextConn,
    seq := s.seq + 1,
    out := s.out ++ s.clients.map fun p => (p.1, ⟨s.seq, event, data⟩) }

/-- First half of the `GET /mcp/sse` handler (server.ts 161-172): generate a
connection id, read the `Last-Event-ID` resume header
(`header ? Number(header) : 0`; an absent or empty — falsy — header is
`none`), register the connection. -/
def sseRegister (hdr : Option String) (t : Int) (s : SseState) : SseState :=
  let lastE := match hdr with
    | some h => strToNum h
    | none => JsNum.int 0
  { s with clients := s.clients ++ [(s.nextConn, ⟨t, lastE⟩)],
           nextConn := s.nextConn + 1 }

/-- Second half of the `GET /mcp/sse` handler (server.ts 175-180): write the
`welcome` event directly — and only — to the new connection using the
current sequence number, set its `lastEventId` to it, increment once. -/
def sseWelcome (cid : Nat) (iso : String) (s : SseState) : SseState :=
  { s with
    clients := s.clients.map fun p =>
      if p.1 = cid then (p.1, { p.2 with lastEventId := .int s.seq }) else p,
    seq := s.seq + 1,
    out := s.out ++ [(cid, ⟨s.seq, "welcome",
      .obj [("clientId", .str (toString cid)), ("serverTime", .str iso)]⟩)] }

/-- The whole `GET /mcp/sse` accept handler. -/
def sseAccept (hdr : Option String) (t : Int) (iso : String) (s : SseState) : SseState :=
  sseWelcome s.nextConn iso (sseRegister hdr t s)

/-- The `close` handler (server.ts 182-185): remove the connection from the
registry; nothing is written to it afterwards. -/
def sseClose (cid : Nat) (s : SseState) : SseState :=
  { s with clients := s.clients.filter fun p => p.1 != cid }

/-- The events that touch the SSE state over a process run: a `broadcast`
call (an `rpc` mirror or the 10-second `tick`), an SSE accept, a close. -/
inductive SseOp where
  | broadcast (event : String) (data : JsVal)
  | accept (hdr : Option String) (t : Int) (iso : String)
  | close (cid : Nat)

/-- Effect of one event on the SSE state. -/
def sseStep : SseOp → SseState → SseState
  | .broadcast e d, s => sseBroadcast e d s
  | .accept hdr t iso, s => sseAccept hdr t iso s
  | .close cid, s => sseClose cid s

/-- A run of the process from a given state. -/
def runOps : List SseOp → SseState → SseState
  | [], s => s
  | op :: ops, s => runOps ops (sseStep op s)

/-- The sequence ids of the frames connection `c` received, in write order,
extracted from a write log. -/
def clientSeqs (c : Nat) (out : List (Nat × SseFrame)) : List Int :=
  (out.filter fun p => p.1 == c).map fun p => p.2.seq

/-- The sequence number consumed by each sequence-consuming op of a run
(one per `broadcast` and per accept's welcome; closes consume none). -/
def runSeqs : List SseOp → SseState → List Int
  | [], _ => []
  | .broadcast e d :: ops, s => s.seq :: runSeqs ops (sseStep (.broadcast e d) s)
  | .accept h t i :: ops, s => s.seq :: runSeqs ops (sseStep (.accept h t i) s)
  | .close c :: ops, s => runSeqs ops (sseStep (.close c) s)

/-! ## Command ingress: `POST /mcp/command` (server.ts 189-200) -/

/-- The parsed JSON body: a single request object or a batch array
(`express.json` in its default strict mode admits only those two shapes). -/
inductive CmdBody where
  | one (r : JsonRpcRequest)
  | batch (rs : List JsonRpcRequest)

/-- The HTTP reply: a single response object or an array. -/
inductive CmdReply where
  | one (r : JsonRpcResponse)
  | batch (rs : List JsonRpcResponse)

/-- The JSON value of the `id` member of a response envelope. -/
def idToJsVal : Option RpcId → JsVal
  | none => .null
  | some (.str s) => .str s
  | some (.num n) => .num (.int n)

/-- The JSON value of a response envelope (what `broadcast("rpc", resp)`
serializes; an absent `data` member is dropped by `JSON.stringify`). -/
def respToJsVal : JsonRpcResponse → JsVal
  | .success i r => .obj [("jsonrpc", .str "2.0"), ("id", idToJsVal i), ("result", r)]
  | .failure i e => .obj [("jsonrpc", .str "2.0"), ("id", idToJsVal i),
      ("error", .obj ([("code", .num (.int e.code)), ("message", .str e.message)] ++
        (match e.data with | some d => [("data", d)] | none => [])))]

/-- The `for (const r of requests)` loop (server.ts 193-198): await each
dispatch, push the response, broadcast it as an `rpc` event — strictly in
order, each response computed before the next dispatch begins. -/
def commandLoop (env : ServerEnv) :
    List JsonRpcRequest → SseState → List JsonRpcResponse × SseState
  | [], s => ([], s)
  | r :: rs, s =>
    let resp := handleRpcServer env r
    let (resps, s') := commandLoop env rs (sseBroadcast "rpc" (respToJsVal resp) s)
    (resp :: resps, s')

/-- The `POST /mcp/command` handler (server.ts 189-200): normalize the body
to a list, run the loop, reply with `responses` for an array body and
`responses[0]` for a single object (the loop then produced exactly one
response, so the `headD` default is never consulted). -/
def commandPost (env : ServerEnv) (body : CmdBody) (s : SseState) :
    CmdReply × SseState :=
  let requests := match body with | .one r => [r] | .batch rs => rs
  let (responses, s') := commandLoop env requests s
  (match body with
   | .one _ => .one (responses.headD (.failure none ⟨0, "", none⟩))
   | .batch _ => .batch responses, s')

/-! ## Stdio transport (tavily.ts 124-147) -/

/-- The effect of handling one complete stdio line (tavily.ts 132-143):
dispatch a parsed request (asynchronously; its response line is written when
`handleRpc` resolves) or immediately emit a response line.  An empty trimmed
line produces no action. -/
inductive StdioAction where
  | dispatch (req : JsonRpcRequest)
  | emit (resp : JsonRpcResponse)

/-- The parse-failure line (tavily.ts 137-141): code -32700, "Parse error",
`id: null`, `data` carrying the parse diagnostic. -/
def parseErrorResp (diag : String) : JsonRpcResponse :=
  .failure none ⟨-32700, "Parse error", some (.str diag)⟩

/-- One iteration of the while loop (tavily.ts 130-143): trim the segment,
skip it if empty, `JSON.parse` it (the platform parser, abstracted as the
`parse` oracle returning a request or a diagnosed failure); a parsed request
is dispatched, a failure is emitted at once. -/
def handleLine (parse : String → Except String JsonRpcRequest)
    (line : String) : Option StdioAction :=
  let l := jsTrim line
  if l = "" then none
  else match parse l with
    | .ok req => some (.dispatch req)
    | .error e => some (.emit (parseErrorResp e))

/-- Handling of a list of complete lines, in order. -/
def processBuffer (parse : String → Except String JsonRpcRequest)
    (lines : List String) : List StdioAction :=
  lines.filterMap (handleLine parse)

/-- The accumulating input buffer (tavily.ts 124). -/
structure StdioState where
  buffer : String

/-- The stdin `data` handler (tavily.ts 126-145): append the chunk and run
the `while (indexOf("\x5cn") >= 0)` loop, which consumes every complete
(newline-terminated) segment in order — exactly the `splitOn` parts save the
last — and retains the trailing partial segment as the new buffer. -/
def onData (parse : String → Except String JsonRpcRequest)
    (st : StdioState) (chunk : String) : StdioState × List StdioAction :=
  let parts := (st.buffer ++ chunk).splitOn "\n"
  (⟨parts.getLastD ""⟩, processBuffer parse parts.dropLast)

/-- The readiness line written at module initialization (tavily.ts 147):
a response envelope with `id: null` and result
`{ready: true, tools: Object.keys(TOOLS)}`. -/
def readinessResp : JsonRpcResponse :=
  .success none (.obj [("ready", .bool true),
    ("tools", .arr (tavilyTools.map fun p => .str p.1))])

/-- The response line a completed action contributes: a parse failure was
emitted synchronously; a dispatched request's line is `handleRpc`'s
response. -/
def actionOut (env : TavilyEnv) : StdioAction → JsonRpcResponse
  | .dispatch req => handleRpcTavily env req
  | .emit resp => resp

/-- Output lines produced while consuming the given stdin chunks, under the
canonical schedule that resolves each dispatch before the next line
(completion order of concurrently outstanding dispatches is not part of any
claim proved below). -/
def chunksOut (env : TavilyEnv) (parse : String → Except String JsonRpcRequest) :
    List String → StdioState → List JsonRpcResponse
  | [], _ => []
  | c :: cs, st =>
    let (st', acts) := onData parse st c
    acts.map (actionOut env) ++ chunksOut env parse cs st'

/-- A whole stdio transport run (tavily.ts 124-147).  Node delivers stdin
`data` events only after the synchronous module evaluation — which ends by
writing the readiness line — has completed, so that line precedes every
other output. -/
def stdioRun (env : TavilyEnv) (parse : String → Except String JsonRpcRequest)
    (chunks : List String) : List JsonRpcResponse :=
  readinessResp :: chunksOut env parse chunks ⟨""⟩

/-! ## Auxiliary definitions used by the statements below -/

/-- Two events are header-variants when they are equal, except that the
`Last-Event-ID` header value a connecting client supplied may differ.
Runs related pointwise by this relation differ only in supplied headers. -/
inductive OpVariant : SseOp → SseOp → Prop where
  | broadcast (e : String) (d : JsVal) : OpVariant (.broadcast e d) (.broadcast e d)
  | accept (hd₁ hd₂ : Option String) (t : Int) (iso : String) :
      OpVariant (.accept hd₁ t iso) (.accept hd₂ t iso)
  | close (c : Nat) : OpVariant (.close c) (.close c)

/-- Erase a connection's stored `lastEventId`. -/
def scrubConn (p : Nat × ClientConn) : Nat × ClientConn :=
  (p.1, { p.2 with lastEventId := .int 0 })

/-- The observable part of the SSE state: everything except the stored
`lastEventId` values. -/
def scrubState (s : SseState) : SseState :=
  { s with clients := s.clients.map scrubConn }

/-- Invariant of the SSE state maintained by every step: every logged frame
carries a sequence number below the counter, client keys are bounded by the
token counter and duplicate-free, and every connection's received ids are
strictly increasing. -/
def SeqInv (s : SseState) : Prop :=
  (∀ p ∈ s.out, p.2.seq < s.seq) ∧
  (∀ q ∈ s.clients, q.1 < s.nextConn) ∧
  (s.clients.map Prod.fst).Nodup ∧
  (∀ c, List.Pairwise (· < ·) (clientSeqs c s.out))

/-! ## Helper lemmas -/

/-- A `try`-body success of the server dispatcher always carries the
request's id. -/
theorem tryServer_ok_id {env : ServerEnv} {req : JsonRpcRequest} {resp : JsonRpcResponse}
    (h : tryServer env req = .ok resp) : resp.respId = req.id := by
  unfold tryServer at h
  dsimp only at h
  repeat' split at h
  all_goals first
    | (subst h; rfl)
    | (injection h with h2; subst h2; rfl)
    | (cases h)

/-- A `try`-body success of the stdio dispatcher always carries the
request's id. -/
theorem tryTavily_ok_id {env : TavilyEnv} {req : JsonRpcRequest} {resp : JsonRpcResponse}
    (h : tryTavily env req = .ok resp) : resp.respId = req.id := by
  unfold tryTavily at h
  dsimp only at h
  repeat' split at h
  all_goals first
    | (subst h; rfl)
    | (injection h with h2; subst h2; rfl)
    | (cases h)

/-- Closed form of the command loop: the responses are the in-order
dispatches and the SSE state accumulates one `rpc` broadcast per request,
in request order. -/
theorem commandLoop_spec (env : ServerEnv) (rs : List JsonRpcRequest) (s : SseState) :
    commandLoop env rs s
      = (rs.map (handleRpcServer env),
         rs.foldl (fun st r => sseBroadcast "rpc" (respToJsVal (handleRpcServer env r)) st) s) := by
  induction rs generalizing s with
  | nil => rfl
  | cons r rs ih => simp [commandLoop, ih]

/-! ## Claims -/

/-- C2: for every request — across all methods and both outcomes — the
response of either dispatcher carries exactly the request's id (`none`
standing for an absent-or-null id, rendered as `null`). -/
theorem c2_response_id_matches_request (envS : ServerEnv) (envT : TavilyEnv)
    (req : JsonRpcRequest) :
    (handleRpcServer envS req).respId = req.id ∧
    (handleRpcTavily envT req).respId = req.id := by
  constructor
  · unfold handleRpcServer
    split
    · rfl
    · cases h : tryServer envS req with
      | ok resp => simp [tryServer_ok_id h]
      | error e => simp [JsonRpcResponse.respId]
  · unfold handleRpcTavily
    split
    · rfl
    · cases h : tryTavily envT req with
      | ok resp => simp [tryTavily_ok_id h]
      | error e => simp [JsonRpcResponse.respId]

/-- C5: a batch body of K requests is dispatched strictly sequentially
in array order — the SSE state threads one `rpc` broadcast per response, in
request order, each response computed before the next dispatch — and the
reply is the array of the K responses in input order; a single-object body
gets the single corresponding response object. -/
theorem c5_command_batch_order (env : ServerEnv) (s : SseState)
    (rs : List JsonRpcRequest) (r : JsonRpcRequest) :
    commandPost env (.batch rs) s
      = (.batch (rs.map (handleRpcServer env)),
         rs.foldl (fun st q => sseBroadcast "rpc" (respToJsVal (handleRpcServer env q)) st) s)
    ∧ (rs.map (handleRpcServer env)).length = rs.length
    ∧ commandPost env (.one r) s
      = (.one (handleRpcServer env r),
         sseBroadcast "rpc" (respToJsVal (handleRpcServer env r)) s) := by
  refine ⟨?_, by simp, ?_⟩
  · simp [commandPost, commandLoop_spec]
  · simp [commandPost, commandLoop_spec]

/-- C6: a complete input line whose trimmed text is non-empty and fails
to parse contributes exactly one output line — a Failure with code -32700,
message "Parse error", id `null` and `data` the parse diagnostic — and the
lines after it in the same buffer are still processed, unchanged; the
`data` handler feeds every complete line of the buffer to this processing. -/
theorem c6_parse_error_line (parse : String → Except String JsonRpcRequest)
    (st : StdioState) (chunk : String) (pre post : List String) (line e : String)
    (h1 : ¬ jsTrim line = "") (h2 : parse (jsTrim line) = .error e) :
    processBuffer parse (pre ++ line :: post)
      = processBuffer parse pre
        ++ .emit (.failure none ⟨-32700, "Parse error", some (.str e)⟩)
          :: processBuffer parse post
    ∧ (onData parse st chunk).2
      = processBuffer parse (((st.buffer ++ chunk).splitOn "\n").dropLast) := by
  constructor
  · simp [processBuffer, List.filterMap_append, List.filterMap_cons, handleLine, h1, h2,
      parseErrorResp]
  · rfl

/-- Witness for C6 at a concrete buffer and a concrete parse oracle. -/
theorem c6_witness :
    processBuffer (fun s => .error s) (["x"] ++ "not-json" :: ["y"])
      = processBuffer (fun s => .error s) ["x"]
        ++ .emit (.failure none ⟨-32700, "Parse error", some (.str "not-json")⟩)
          :: processBuffer (fun s => .error s) ["y"] :=
  (c6_parse_error_line (fun s => .error s) ⟨""⟩ "" ["x"] ["y"] "not-json" "not-json"
    (by decide) rfl).1

/-- C7: the readiness announcement — a response envelope with `id: null`
and result `{ready: true, tools: [names of all registered tools]}` — is the
first line of every stdio run, emitted before any input processing. -/
theorem c7_readiness_is_first_output (env : TavilyEnv)
    (parse : String → Except String JsonRpcRequest) (chunks : List String) :
    (stdioRun env parse chunks).head?
      = some (.success none (.obj [("ready", .bool true),
          ("tools", .arr [.str "tavily_search"])]))
    ∧ stdioRun env parse chunks
      = readinessResp :: chunksOut env parse chunks ⟨""⟩
    ∧ readinessResp
      = .success none (.obj [("ready", .bool true),
          ("tools", .arr (tavilyTools.map fun p => .str p.1))]) :=
  ⟨rfl, rfl, rfl⟩

/-- C1: both dispatchers are total functions into the response union — every
request value yields a Success or a Failure, never an uncaught throw — and
whenever the try body raises (tool invocation errors included, with the
version tag accepted) the dispatcher converts the thrown error into the
code -32000 Failure response carrying the error message and stack. -/
theorem c1_dispatch_never_throws (envS : ServerEnv) (envT : TavilyEnv)
    (req : JsonRpcRequest) :
    ((∃ i r, handleRpcServer envS req = .success i r) ∨
      (∃ i err, handleRpcServer envS req = .failure i err)) ∧
    ((∃ i r, handleRpcTavily envT req = .success i r) ∨
      (∃ i err, handleRpcTavily envT req = .failure i err)) ∧
    (∀ e, req.jsonrpc = "2.0" → tryServer envS req = .error e →
      handleRpcServer envS req = .failure req.id
        ⟨-32000, if e.message = "" then "Internal error" else e.message,
          e.stack.map .str⟩) ∧
    (∀ e, req.jsonrpc = "2.0" → tryTavily envT req = .error e →
      handleRpcTavily envT req = .failure req.id
        ⟨-32000, if e.message = "" then "Internal error" else e.message,
          e.stack.map .str⟩) := by
  refine ⟨?_, ?_, ?_, ?_⟩
  · cases h : handleRpcServer envS req with
    | success i r => exact .inl ⟨i, r, rfl⟩
    | failure i err => exact .inr ⟨i, err, rfl⟩
  · cases h : handleRpcTavily envT req with
    | success i r => exact .inl ⟨i, r, rfl⟩
    | failure i err => exact .inr ⟨i, err, rfl⟩
  · intro e hv he
    unfold handleRpcServer
    rw [if_neg (by simp [hv]), he]
  · intro e hv he
    unfold handleRpcTavily
    rw [if_neg (by simp [hv]), he]

theorem c1_witness :
    handleRpcServer ⟨""⟩ ⟨"2.0", none, "callTool", .obj [("name", .str "nope")]⟩
      = .failure none ⟨-32000, "Tool not found: nope", none⟩
    ∧ handleRpcTavily ⟨none, .int 5, fun _ => .reject ⟨"", none⟩⟩
        ⟨"2.0", none, "callTool",
          .obj [("name", .str "tavily_search"), ("input", .obj [])]⟩
      = .failure none
          ⟨-32000, "Tavily API key missing. 请在环境变量中设置 TAVILY_API_KEY", none⟩ := by
  constructor
  · exact (c1_dispatch_never_throws ⟨""⟩ ⟨none, .int 5, fun _ => .reject ⟨"", none⟩⟩
      ⟨"2.0", none, "callTool", .obj [("name", .str "nope")]⟩).2.2.1
      ⟨"Tool not found: nope", none⟩ rfl rfl
  · exact (c1_dispatch_never_throws ⟨""⟩ ⟨none, .int 5, fun _ => .reject ⟨"", none⟩⟩
      ⟨"2.0", none, "callTool",
        .obj [("name", .str "tavily_search"), ("input", .obj [])]⟩).2.2.2
      ⟨"Tavily API key missing. 请在环境变量中设置 TAVILY_API_KEY", none⟩ rfl rfl

/-- C8 counterexample: the server.ts `listTools` result entries carry only
`name` and `description`; they expose no `inputSchema` (nor `schema`)
field, contradicting the claim that entries expose name, description and
schema. -/
theorem c8_counterexample :
    handleRpcServer ⟨""⟩ ⟨"2.0", none, "listTools", .undefined⟩
      = .success none (.arr [
          .obj [("name", .str "echo"),
                ("description", .str "Return the provided input. / 回显输入内容")],
          .obj [("name", .str "now"),
                ("description", .str "Return current ISO timestamp. / 返回当前时间戳")],
          .obj [("name", .str "sum"),
                ("description", .str "Sum numbers in an array. / 对数组中的数字求和")]])
    ∧ getField (.obj [("name", .str "echo"),
          ("description", .str "Return the provided input. / 回显输入内容")])
        "inputSchema" = .undefined
    ∧ getField (.obj [("name", .str "echo"),
          ("description", .str "Return the provided input. / 回显输入内容")])
        "schema" = .undefined :=
  ⟨rfl, rfl, rfl⟩

/-- C8 amended: for both dispatchers `listTools` returns one entry per
registered tool in registration order; entries expose `name` and
`description` — plus `inputSchema` in tavily.ts only, server.ts entries
carry no schema field — and never the invoke capability (no `run` field);
repeated calls return identical content regardless of environment or
params. -/
theorem c8_list_tools (envS envS' : ServerEnv) (envT envT' : TavilyEnv)
    (i : Option RpcId) (p p' : JsVal) :
    handleRpcServer envS ⟨"2.0", i, "listTools", p⟩
      = .success i (.arr (serverTools.map fun q =>
          JsVal.obj [("name", .str q.2.name), ("description", .str q.2.description)]))
    ∧ (serverTools.map fun q =>
        JsVal.obj [("name", .str q.2.name), ("description", .str q.2.description)]).length
        = serverTools.length
    ∧ ((serverTools.map fun q =>
          JsVal.obj [("name", .str q.2.name), ("description", .str q.2.description)]).map
        fun entry => getField entry "run") = [.undefined, .undefined, .undefined]
    ∧ ((serverTools.map fun q =>
          JsVal.obj [("name", .str q.2.name), ("description", .str q.2.description)]).map
        fun entry => getField entry "name")
        = (serverTools.map fun q => JsVal.str q.2.name)
    ∧ handleRpcTavily envT ⟨"2.0", i, "listTools", p⟩
      = .success i (.arr (tavilyTools.map fun q =>
          JsVal.obj [("name", .str q.2.name), ("description", .str q.2.description),
                ("inputSchema", q.2.inputSchema)]))
    ∧ ((tavilyTools.map fun q =>
          JsVal.obj [("name", .str q.2.name), ("description", .str q.2.description),
                ("inputSchema", q.2.inputSchema)]).map
        fun entry => getField entry "run") = [.undefined]
    ∧ ((tavilyTools.map fun q =>
          JsVal.obj [("name", .str q.2.name), ("description", .str q.2.description),
                ("inputSchema", q.2.inputSchema)]).map
        fun entry => getField entry "inputSchema") = [tavilySearchSchema]
    ∧ handleRpcServer envS ⟨"2.0", i, "listTools", p⟩
        = handleRpcServer envS' ⟨"2.0", i, "listTools", p'⟩
    ∧ handleRpcTavily envT ⟨"2.0", i, "listTools", p⟩
        = handleRpcTavily envT' ⟨"2.0", i, "listTools", p'⟩ :=
  ⟨rfl, rfl, rfl, rfl, rfl, rfl, rfl, rfl, rfl⟩

theorem clientSeqs_cons (c : Nat) (x : Nat × SseFrame) (xs : List (Nat × SseFrame)) :
    clientSeqs c (x :: xs)
      = if x.1 == c then x.2.seq :: clientSeqs c xs else clientSeqs c xs := by
  by_cases hx : x.1 == c <;> simp [clientSeqs, List.filter_cons, hx]

theorem clientSeqs_append (c : Nat) (xs ys : List (Nat × SseFrame)) :
    clientSeqs c (xs ++ ys) = clientSeqs c xs ++ clientSeqs c ys := by
  simp [clientSeqs, List.filter_append]

theorem clientSeqs_lt {c : Nat} {out : List (Nat × SseFrame)} {b : Int}
    (h : ∀ p ∈ out, p.2.seq < b) : ∀ x ∈ clientSeqs c out, x < b := by
  intro x hx
  simp only [clientSeqs, List.mem_map, List.mem_filter] at hx
  obtain ⟨p, ⟨hp, _⟩, rfl⟩ := hx
  exact h p hp

theorem clientSeqs_nil_of_not_mem {c : Nat} {F : SseFrame} {l : List (Nat × ClientConn)}
    (h : c ∉ l.map Prod.fst) :
    clientSeqs c (l.map fun p => (p.1, F)) = [] := by
  induction l with
  | nil => rfl
  | cons p l ih =>
    simp only [List.map_cons, List.mem_cons] at h
    push_neg at h
    rw [List.map_cons, clientSeqs_cons, if_neg (by simpa using fun hh => h.1 hh.symm)]
    exact ih h.2

theorem clientSeqs_map_shape (c : Nat) (F : SseFrame) (l : List (Nat × ClientConn))
    (h : (l.map Prod.fst).Nodup) :
    clientSeqs c (l.map fun p => (p.1, F)) = [] ∨
    clientSeqs c (l.map fun p => (p.1, F)) = [F.seq] := by
  induction l with
  | nil => exact .inl rfl
  | cons p l ih =>
    simp only [List.map_cons, List.nodup_cons] at h
    by_cases hc : p.1 = c
    · right
      rw [List.map_cons, clientSeqs_cons, if_pos (by simpa using hc)]
      rw [clientSeqs_nil_of_not_mem (hc ▸ h.1)]
    · rw [List.map_cons, clientSeqs_cons, if_neg (by simpa using hc)]
      exact ih h.2

theorem seqInv_broadcast {s : SseState} (h : SeqInv s) (e : String) (d : JsVal) :
    SeqInv (sseBroadcast e d s) := by
  obtain ⟨h1, h2, h3, h4⟩ := h
  refine ⟨?_, ?_, ?_, ?_⟩
  · intro p hp
    rcases List.mem_append.mp hp with hp | hp
    · have := h1 p hp
      show p.2.seq < s.seq + 1
      omega
    · obtain ⟨q, _, rfl⟩ := List.mem_map.mp hp
      show SseFrame.seq ⟨s.seq, e, d⟩ < s.seq + 1
      simp
  · intro q hq
    obtain ⟨q', hq', rfl⟩ := List.mem_map.mp hq
    exact h2 q' hq'
  · show ((s.clients.map fun p => (p.1, { p.2 with lastEventId := .int s.seq })).map Prod.fst).Nodup
    rw [List.map_map]
    exact h3
  · intro c
    show List.Pairwise (· < ·)
      (clientSeqs c (s.out ++ s.clients.map fun p => (p.1, ⟨s.seq, e, d⟩)))
    rw [clientSeqs_append]
    apply List.pairwise_append.mpr
    refine ⟨h4 c, ?_, ?_⟩
    · rcases clientSeqs_map_shape c ⟨s.seq, e, d⟩ s.clients h3 with hs | hs <;> simp [hs]
    · intro a ha b hb
      have ha' := clientSeqs_lt h1 a ha
      rcases clientSeqs_map_shape c ⟨s.seq, e, d⟩ s.clients h3 with hs | hs
      · rw [hs] at hb; cases hb
      · rw [hs] at hb
        rcases List.mem_singleton.mp hb with rfl
        exact ha'

theorem seqInv_register {s : SseState} (h : SeqInv s) (hdr : Option String) (t : Int) :
    SeqInv (sseRegister hdr t s) := by
  obtain ⟨h1, h2, h3, h4⟩ := h
  refine ⟨h1, ?_, ?_, h4⟩
  · intro q hq
    rcases List.mem_append.mp hq with hq | hq
    · have := h2 q hq
      show q.1 < s.nextConn + 1
      omega
    · rcases List.mem_singleton.mp hq with rfl
      show s.nextConn < s.nextConn + 1
      omega
  · show ((s.clients ++ [(s.nextConn, _)]).map Prod.fst).Nodup
    rw [List.map_append]
    apply List.nodup_append.mpr
    refine ⟨h3, by simp, ?_⟩
    intro k hk
    obtain ⟨q, hq, rfl⟩ := List.mem_map.mp hk
    have := h2 q hq
    simp only [List.map_cons, List.map_nil, List.mem_singleton]
    omega

theorem seqInv_welcome {s : SseState} (h : SeqInv s) (cid : Nat) (iso : String) :
    SeqInv (sseWelcome cid iso s) := by
  obtain ⟨h1, h2, h3, h4⟩ := h
  refine ⟨?_, ?_, ?_, ?_⟩
  · intro p hp
    rcases List.mem_append.mp hp with hp | hp
    · have := h1 p hp
      show p.2.seq < s.seq + 1
      omega
    · rcases List.mem_singleton.mp hp with rfl
      show s.seq < s.seq + 1
      omega
  · intro q hq
    obtain ⟨q', hq', rfl⟩ := List.mem_map.mp hq
    have := h2 q' hq'
    split <;> simpa
  · show ((s.clients.map fun p =>
        if p.1 = cid then (p.1, { p.2 with lastEventId := .int s.seq }) else p).map
          Prod.fst).Nodup
    rw [List.map_map]
    have : ∀ p ∈ s.clients,
        (Prod.fst ∘ fun p =>
          if p.1 = cid then (p.1, { p.2 with lastEventId := JsNum.int s.seq }) else p) p
        = Prod.fst p := by
      intro p _
      by_cases hp : p.1 = cid <;> simp [hp]
    rw [List.map_congr_left this]
    exact h3
  · intro c
    show List.Pairwise (· < ·) (clientSeqs c (s.out ++ [(cid, ⟨s.seq, "welcome", _⟩)]))
    rw [clientSeqs_append]
    apply List.pairwise_append.mpr
    refine ⟨h4 c, ?_, ?_⟩
    · rw [clientSeqs_cons]
      split <;> simp [clientSeqs]
    · intro a ha b hb
      have ha' := clientSeqs_lt h1 a ha
      rw [clientSeqs_cons] at hb
      split at hb
      · rcases List.mem_singleton.mp (by simpa [clientSeqs] using hb) with rfl
        exact ha'
      · simp [clientSeqs] at hb

theorem seqInv_close {s : SseState} (h : SeqInv s) (cid : Nat) :
    SeqInv (sseClose cid s) := by
  obtain ⟨h1, h2, h3, h4⟩ := h
  refine ⟨h1, ?_, ?_, h4⟩
  · intro q hq
    exact h2 q (List.mem_of_mem_filter hq)
  · exact List.Nodup.sublist (List.Sublist.map Prod.fst (List.filter_sublist _)) h3

theorem seqInv_step (op : SseOp) {s : SseState} (h : SeqInv s) : SeqInv (sseStep op s) := by
  cases op with
  | broadcast e d => exact seqInv_broadcast h e d
  | accept hdr t iso => exact seqInv_welcome (seqInv_register h hdr t) _ iso
  | close cid => exact seqInv_close h cid

theorem seqInv_runOps (ops : List SseOp) (s : SseState) (h : SeqInv s) :
    SeqInv (runOps ops s) := by
  induction ops generalizing s with
  | nil => exact h
  | cons op ops ih => exact ih _ (seqInv_step op h)

theorem seqInv_initSse : SeqInv initSse :=
  ⟨by simp [initSse], by simp [initSse], by simp [initSse],
   fun c => by simp [initSse, clientSeqs]⟩

theorem sseStep_seq_le (op : SseOp) (s : SseState) : s.seq ≤ (sseStep op s).seq := by
  cases op with
  | broadcast e d => show s.seq ≤ s.seq + 1; omega
  | accept hdr t iso => show s.seq ≤ (sseRegister hdr t s).seq + 1; show s.seq ≤ s.seq + 1; omega
  | close cid => show s.seq ≤ s.seq; omega

theorem runSeqs_lb (ops : List SseOp) :
    ∀ s : SseState, ∀ x ∈ runSeqs ops s, s.seq ≤ x := by
  induction ops with
  | nil => intro s x hx; simp [runSeqs] at hx
  | cons op ops ih =>
    intro s x hx
    cases op with
    | broadcast e d =>
      rcases List.mem_cons.mp hx with rfl | hx
      · exact le_refl _
      · exact le_trans (sseStep_seq_le (.broadcast e d) s) (ih _ x hx)
    | accept hdr t iso =>
      rcases List.mem_cons.mp hx with rfl | hx
      · exact le_refl _
      · exact le_trans (sseStep_seq_le (.accept hdr t iso) s) (ih _ x hx)
    | close cid =>
      exact le_trans (sseStep_seq_le (.close cid) s) (ih _ x hx)

theorem runSeqs_pairwise (ops : List SseOp) :
    ∀ s : SseState, List.Pairwise (· < ·) (runSeqs ops s) := by
  induction ops with
  | nil => intro s; simp [runSeqs]
  | cons op ops ih =>
    intro s
    cases op with
    | broadcast e d =>
      refine List.pairwise_cons.mpr ⟨?_, ih _⟩
      intro x hx
      have hlb := runSeqs_lb ops _ x hx
      have hstep : (sseStep (.broadcast e d) s).seq = s.seq + 1 := rfl
      omega
    | accept hdr t iso =>
      refine List.pairwise_cons.mpr ⟨?_, ih _⟩
      intro x hx
      have hlb := runSeqs_lb ops _ x hx
      have hstep : (sseStep (.accept hdr t iso) s).seq = s.seq + 1 := rfl
      omega
    | close cid => exact ih _

/-- C4: `broadcast` increments the global sequence exactly once per call
(also with zero registered connections), every frame it writes carries the
pre-increment sequence number (one frame per recipient, all with the same
id); the welcome event of an SSE accept also consumes exactly one
increment; and over any run from the initial state, each connection's
received ids are strictly increasing with no repeats, as are the sequence
numbers consumed by successive broadcast/accept events. -/
theorem c4_broadcast_sequence :
    (∀ (s : SseState) (e : String) (d : JsVal), (sseBroadcast e d s).seq = s.seq + 1) ∧
    (∀ (s : SseState) (e : String) (d : JsVal),
      (((sseBroadcast e d s).out.drop s.out.length).map fun p => p.2.seq)
        = List.replicate s.clients.length s.seq) ∧
    (∀ (s : SseState) (hdr : Option String) (t : Int) (iso : String),
      (sseAccept hdr t iso s).seq = s.seq + 1) ∧
    (∀ (ops : List SseOp) (c : Nat),
      List.Pairwise (· < ·) (clientSeqs c (runOps ops initSse).out)) ∧
    (∀ ops : List SseOp, List.Pairwise (· < ·) (runSeqs ops initSse)) := by
  refine ⟨fun s e d => rfl, ?_, fun s hdr t iso => rfl, ?_, fun ops => runSeqs_pairwise ops _⟩
  · intro s e d
    have hdrop : (sseBroadcast e d s).out.drop s.out.length
        = s.clients.map fun p => (p.1, ⟨s.seq, e, d⟩) := by
      show (s.out ++ _).drop s.out.length = _
      simp
    rw [hdrop]
    induction s.clients with
    | nil => rfl
    | cons x xs ih => simp [ih, List.replicate_succ]
  · intro ops c
    exact (seqInv_runOps ops initSse seqInv_initSse).2.2.2 c

theorem map_scrub_ite (l : List (Nat × ClientConn)) (cid : Nat) (x : JsNum) :
    ((l.map fun p => if p.1 = cid then (p.1, { p.2 with lastEventId := x }) else p).map
      scrubConn) = l.map scrubConn := by
  rw [List.map_map]
  apply List.map_congr_left
  intro p _
  by_cases hp : p.1 = cid <;> simp [hp, scrubConn, Function.comp]

theorem map_scrub_setLast (l : List (Nat × ClientConn)) (x : JsNum) :
    ((l.map fun p => (p.1, { p.2 with lastEventId := x })).map scrubConn)
      = l.map scrubConn := by
  rw [List.map_map]
  apply List.map_congr_left
  intro p _
  rfl

theorem map_key_frame (l : List (Nat × ClientConn)) (F : SseFrame) :
    (l.map fun p => ((p.1 : Nat), F)) = (l.map scrubConn).map fun q => (q.1, F) := by
  rw [List.map_map]
  apply List.map_congr_left
  intro p _
  rfl

theorem scrub_broadcast {s₁ s₂ : SseState} (h : scrubState s₁ = scrubState s₂)
    (e : String) (d : JsVal) :
    scrubState (sseBroadcast e d s₁) = scrubState (sseBroadcast e d s₂) := by
  have hcl : s₁.clients.map scrubConn = s₂.clients.map scrubConn :=
    congrArg SseState.clients h
  have hnext0 := congrArg SseState.nextConn h
  have hnext : s₁.nextConn = s₂.nextConn := hnext0
  have hseq0 := congrArg SseState.seq h
  have hseq : s₁.seq = s₂.seq := hseq0
  have hout0 := congrArg SseState.out h
  have hout : s₁.out = s₂.out := hout0
  have hframes : ∀ F : SseFrame,
      (s₁.clients.map fun p => (p.1, F)) = s₂.clients.map fun p => (p.1, F) := by
    intro F
    conv_lhs => rw [map_key_frame]
    rw [hcl, ← map_key_frame]
  simp only [sseBroadcast, scrubState, SseState.mk.injEq]
  refine ⟨?_, hnext, by rw [hseq], ?_⟩
  · rw [map_scrub_setLast, map_scrub_setLast]
    exact hcl
  · rw [hout, hseq, hframes ⟨s₂.seq, e, d⟩]

theorem scrub_register {s₁ s₂ : SseState} (h : scrubState s₁ = scrubState s₂)
    (hd₁ hd₂ : Option String) (t : Int) :
    scrubState (sseRegister hd₁ t s₁) = scrubState (sseRegister hd₂ t s₂) := by
  have hcl : s₁.clients.map scrubConn = s₂.clients.map scrubConn :=
    congrArg SseState.clients h
  have hnext0 := congrArg SseState.nextConn h
  have hnext : s₁.nextConn = s₂.nextConn := hnext0
  have hseq0 := congrArg SseState.seq h
  have hseq : s₁.seq = s₂.seq := hseq0
  have hout0 := congrArg SseState.out h
  have hout : s₁.out = s₂.out := hout0
  simp only [sseRegister, scrubState, SseState.mk.injEq]
  refine ⟨?_, by rw [hnext], hseq, hout⟩
  rw [List.map_append, List.map_append, hcl, hnext]
  rfl

theorem scrub_welcome {s₁ s₂ : SseState} (h : scrubState s₁ = scrubState s₂)
    (cid : Nat) (iso : String) :
    scrubState (sseWelcome cid iso s₁) = scrubState (sseWelcome cid iso s₂) := by
  have hcl : s₁.clients.map scrubConn = s₂.clients.map scrubConn :=
    congrArg SseState.clients h
  have hnext0 := congrArg SseState.nextConn h
  have hnext : s₁.nextConn = s₂.nextConn := hnext0
  have hseq0 := congrArg SseState.seq h
  have hseq : s₁.seq = s₂.seq := hseq0
  have hout0 := congrArg SseState.out h
  have hout : s₁.out = s₂.out := hout0
  simp only [sseWelcome, scrubState, SseState.mk.injEq]
  refine ⟨?_, hnext, by rw [hseq], by rw [hout, hseq]⟩
  rw [map_scrub_ite, map_scrub_ite]
  exact hcl

theorem scrub_close {s₁ s₂ : SseState} (h : scrubState s₁ = scrubState s₂) (cid : Nat) :
    scrubState (sseClose cid s₁) = scrubState (sseClose cid s₂) := by
  have hcl : s₁.clients.map scrubConn = s₂.clients.map scrubConn :=
    congrArg SseState.clients h
  have hnext0 := congrArg SseState.nextConn h
  have hnext : s₁.nextConn = s₂.nextConn := hnext0
  have hseq0 := congrArg SseState.seq h
  have hseq : s₁.seq = s₂.seq := hseq0
  have hout0 := congrArg SseState.out h
  have hout : s₁.out = s₂.out := hout0
  simp only [sseClose, scrubState, SseState.mk.injEq]
  refine ⟨?_, hnext, hseq, hout⟩
  have e1 : ∀ l : List (Nat × ClientConn),
      ((l.filter fun p => p.1 != cid).map scrubConn)
        = (l.map scrubConn).filter fun p => p.1 != cid := by
    intro l
    induction l with
    | nil => rfl
    | cons p l ih =>
      by_cases hp : (p.1 != cid) = true
      · simp [List.filter_cons, hp, ih, scrubConn]
      · simp [List.filter_cons, hp, ih, scrubConn]
  rw [e1, e1, hcl]

theorem scrub_step {o₁ o₂ : SseOp} {s₁ s₂ : SseState} (hv : OpVariant o₁ o₂)
    (h : scrubState s₁ = scrubState s₂) :
    scrubState (sseStep o₁ s₁) = scrubState (sseStep o₂ s₂) := by
  have hnext0 := congrArg SseState.nextConn h
  have hnext : s₁.nextConn = s₂.nextConn := hnext0
  cases hv with
  | broadcast e d => exact scrub_broadcast h e d
  | accept hd₁ hd₂ t iso =>
    show scrubState (sseWelcome s₁.nextConn iso (sseRegister hd₁ t s₁)) = _
    rw [hnext]
    exact scrub_welcome (scrub_register h hd₁ hd₂ t) _ iso
  | close c => exact scrub_close h c

theorem scrub_runOps {ops₁ ops₂ : List SseOp} (hv : List.Forall₂ OpVariant ops₁ ops₂) :
    ∀ {s₁ s₂ : SseState}, scrubState s₁ = scrubState s₂ →
      scrubState (runOps ops₁ s₁) = scrubState (runOps ops₂ s₂) := by
  induction hv with
  | nil => intro s₁ s₂ h; exact h
  | cons hov _ ih => intro s₁ s₂ h; exact ih (scrub_step hov h)

/-- C9: the `Last-Event-ID` resume header is stored into the connection's
`lastEventId` field on accept, but never influences output: two runs
consisting of the same events except for the header values supplied by
connecting clients produce identical frame logs — no replay ever occurs. -/
theorem c9_resume_marker_unused (ops₁ ops₂ : List SseOp)
    (hv : List.Forall₂ OpVariant ops₁ ops₂) :
    (runOps ops₁ initSse).out = (runOps ops₂ initSse).out
    ∧ ∀ (hdr : String) (t : Int) (s : SseState),
        (sseRegister (some hdr) t s).clients
          = s.clients ++ [(s.nextConn, ⟨t, strToNum hdr⟩)] := by
  constructor
  · have h0 : scrubState initSse = scrubState initSse := rfl
    have h := scrub_runOps hv h0
    have h2 := congrArg SseState.out h
    exact h2
  · intro hdr t s
    rfl

theorem c9_witness :
    (runOps [.accept (some "42") 0 "T", .broadcast "x" .null] initSse).out
      = (runOps [.accept none 0 "T", .broadcast "x" .null] initSse).out :=
  (c9_resume_marker_unused _ _
    (List.Forall₂.cons (OpVariant.accept (some "42") none 0 "T")
      (List.Forall₂.cons (OpVariant.broadcast "x" .null) List.Forall₂.nil))).1
